import Mathlib

/-!
Verification development for the dalog ingestion-and-filtering pipeline:
source abstraction (local / SSH-remote), tail-mode reading, the pattern
safety validator, the exclusion engine, the priority-based styling engine,
and the change watcher.  The pipeline components are embedded as executable
Lean definitions and the documented behaviours are proved about them.
-/

namespace Dalog

/-! ## Data model -/

/-- A single log line: 1-based position in the file, the displayed content,
and the pre-processing content (defaults to the content itself). -/
structure LogLine where
  line_number : Nat
  content : String
  original_content : String
  deriving Repr, DecidableEq

/-- Build a LogLine whose original content equals its content. -/
def LogLine.plain (n : Nat) (c : String) : LogLine :=
  { line_number := n, content := c, original_content := c }

/-! ## Local Line Source (LogProcessor) -/

/-- Modelled from the spec: the local line source (`LogProcessor.read_lines`)
is absent from the sources; reconstructed from §4.2.  Full-read mode emits one
LogLine per file line with 1-based line numbers; tail mode `tail = N` emits
exactly the last `N` lines preserving original order and original line
numbers, all of them when the file has fewer than `N` lines, and nothing when
`N = 0`. -/
def read_lines (fileLines : List String) (tailLines : Option Nat) : List LogLine :=
  let numbered := fileLines.enum.map (fun p => LogLine.plain (p.1 + 1) p.2)
  match tailLines with
  | none => numbered
  | some n => numbered.drop (numbered.length - n)

/-! ## Change Watcher -/

/-- The last observed `{size, modified_time}` snapshot for one watched path. -/
structure WatchSnapshot where
  size : Nat
  modified_time : Nat
  deriving Repr, DecidableEq

/-- Modelled from the spec: the change watcher (`check_for_changes`) is absent
from the sources; reconstructed from §4.6.  On the first call for a watched
path the observation is recorded as baseline and `false` is returned; on a
later call a differing observation updates the baseline and returns `true`,
an identical observation returns `false`. -/
def check_for_changes (baseline : Option WatchSnapshot) (observed : WatchSnapshot) :
    Bool × Option WatchSnapshot :=
  match baseline with
  | none => (false, some observed)
  | some base => if observed = base then (false, some base) else (true, some observed)

/-! ## Async file watcher bookkeeping -/

/-- Modelled from the spec: the asynchronous file-watcher collaborator that
drives the change watcher task is absent from the sources; its watched-file
bookkeeping is reconstructed from its documented behaviour (a set of watched
paths, an optional OS observer handle, an optional change callback handle). -/
structure AsyncFileWatcher where
  watched_files : List String
  observer : Option Nat
  callback : Option Nat
  deriving Repr, DecidableEq

/-- A freshly constructed watcher: nothing watched, no observer, no callback. -/
def AsyncFileWatcher.init : AsyncFileWatcher :=
  { watched_files := [], observer := none, callback := none }

/-- Add a path to the watched set (idempotent, set semantics). -/
def AsyncFileWatcher.add_file (w : AsyncFileWatcher) (p : String) : AsyncFileWatcher :=
  if p ∈ w.watched_files then w
  else { w with watched_files := p :: w.watched_files }

/-- Remove a path from the watched set; removing an unwatched path is a no-op
and never an error. -/
def AsyncFileWatcher.remove_file (w : AsyncFileWatcher) (p : String) : AsyncFileWatcher :=
  { w with watched_files := w.watched_files.filter (fun q => q ≠ p) }

/-! ## Regular expressions

Modelled from the spec: the safe regex matcher used by the validator, the
exclusion engine and the styling engine is absent from the sources.  A small
regex language (literals, `.`, character classes, perl classes, anchors, word
boundaries, quantifiers, alternation, groups) is embedded with an executable
parser and a fuel-bounded backtracking matcher. -/

/-- One item of a character class `[...]`. -/
inductive ClsItem where
  | single (c : Char)
  | range (lo hi : Char)
  | perlD
  | perlND
  | perlW
  | perlNW
  | perlS
  | perlNS
  deriving Repr, DecidableEq

/-- Abstract syntax of the embedded regex language. -/
inductive Regex where
  | eps
  | lit (c : Char)
  | dot
  | cls (neg : Bool) (items : List ClsItem)
  | cat (a b : Regex)
  | alt (a b : Regex)
  | star (a : Regex)
  | bol
  | eol
  | wordB
  | nonWordB
  deriving Repr, DecidableEq

/-- Word characters, as used by `\w` and `\b`. -/
def wordChar (c : Char) : Bool := c.isAlphanum || c = '_'

/-- Does a character satisfy one class item. -/
def ClsItem.matches (c : Char) : ClsItem → Bool
  | .single d => c = d
  | .range lo hi => decide (lo ≤ c) && decide (c ≤ hi)
  | .perlD => c.isDigit
  | .perlND => !c.isDigit
  | .perlW => wordChar c
  | .perlNW => !(wordChar c)
  | .perlS => c.isWhitespace
  | .perlNS => !c.isWhitespace

/-- `n`-fold concatenation of a regex with itself. -/
def Regex.pow (a : Regex) : Nat → Regex
  | 0 => .eps
  | n + 1 => .cat a (Regex.pow a n)

/-- At most `n` further copies of a regex (each optional). -/
def Regex.upto (a : Regex) : Nat → Regex
  | 0 => .eps
  | n + 1 => .alt (.cat a (Regex.upto a n)) .eps

/-- Desugar a counted repetition `a{m}`, `a{m,}` or `a{m,n}`. -/
def Regex.repBounded (a : Regex) (m : Nat) : Option Nat → Regex
  | none => .cat (a.pow m) (.star a)
  | some n => .cat (a.pow m) (a.upto (n - m))

/-- Translate an escaped character into its regex atom. -/
def escapeAtom (c : Char) : Regex :=
  match c with
  | 'd' => .cls false [.perlD]
  | 'D' => .cls false [.perlND]
  | 'w' => .cls false [.perlW]
  | 'W' => .cls false [.perlNW]
  | 's' => .cls false [.perlS]
  | 'S' => .cls false [.perlNS]
  | 'b' => .wordB
  | 'B' => .nonWordB
  | 'n' => .lit '\n'
  | 't' => .lit '\t'
  | 'r' => .lit '\r'
  | 'A' => .bol
  | 'Z' => .eol
  | _ => .lit c

/-- Parse the body of a character class, after the opening bracket and the
optional negation marker.  Fails (returns `none`) on an unterminated class. -/
def parseClsItems : List Char → List ClsItem → Option (List ClsItem × List Char)
  | [], _ => none
  | ']' :: rest, acc => some (acc.reverse, rest)
  | '\\' :: c :: rest, acc =>
      let item : ClsItem :=
        match c with
        | 'd' => .perlD
        | 'D' => .perlND
        | 'w' => .perlW
        | 'W' => .perlNW
        | 's' => .perlS
        | 'S' => .perlNS
        | 'n' => .single '\n'
        | 't' => .single '\t'
        | 'r' => .single '\r'
        | _ => .single c
      parseClsItems rest (item :: acc)
  | c :: '-' :: d :: rest, acc =>
      if d = ']' then some ((ClsItem.single '-' :: ClsItem.single c :: acc).reverse, rest)
      else parseClsItems rest (ClsItem.range c d :: acc)
  | c :: rest, acc => parseClsItems rest (ClsItem.single c :: acc)

/-- Take a maximal run of decimal digits. -/
def takeDigits : List Char → List Char × List Char
  | [] => ([], [])
  | c :: rest =>
      if c.isDigit then
        let p := takeDigits rest
        (c :: p.1, p.2)
      else ([], c :: rest)

/-- Value of a run of decimal digits. -/
def digitsToNat (ds : List Char) : Nat :=
  ds.foldl (fun n c => n * 10 + (c.toNat - '0'.toNat)) 0

/-- Parse the tail of a counted repetition, after the opening brace:
`m}`, `m,}` or `m,n}`. -/
def parseBrace (cs : List Char) : Option (Nat × Option Nat × List Char) :=
  let p := takeDigits cs
  if p.1.isEmpty then none
  else
    let m := digitsToNat p.1
    match p.2 with
    | '\x7d' :: rest2 => some (m, some m, rest2)
    | ',' :: rest2 =>
        match rest2 with
        | '\x7d' :: rest3 => some (m, none, rest3)
        | _ =>
            let q := takeDigits rest2
            if q.1.isEmpty then none
            else
              match q.2 with
              | '\x7d' :: rest4 => some (m, some (digitsToNat q.1), rest4)
              | _ => none
    | _ => none

/-- Apply a trailing quantifier (`*`, `+`, `?`, `{m,n}`, lazy variants) to a
parsed atom; an absent or malformed quantifier leaves the atom unchanged. -/
def parseQuant (a : Regex) (cs : List Char) : Regex × List Char :=
  match cs with
  | '*' :: '?' :: rest => (Regex.star a, rest)
  | '*' :: rest => (Regex.star a, rest)
  | '+' :: '?' :: rest => (Regex.cat a (Regex.star a), rest)
  | '+' :: rest => (Regex.cat a (Regex.star a), rest)
  | '?' :: '?' :: rest => (Regex.alt a Regex.eps, rest)
  | '?' :: rest => (Regex.alt a Regex.eps, rest)
  | '\x7b' :: rest =>
      match parseBrace rest with
      | some (m, hi, rest2) => (a.repBounded m hi, rest2)
      | none => (a, cs)
  | _ => (a, cs)

mutual

/-- Parse an alternation (lowest precedence). -/
def parseAlt : Nat → List Char → Option (Regex × List Char)
  | 0, _ => none
  | f + 1, cs => do
      let p ← parseCat f cs
      match p.2 with
      | '|' :: rest2 => do
          let q ← parseAlt f rest2
          pure (Regex.alt p.1 q.1, q.2)
      | _ => pure p

/-- Parse a concatenation of quantified atoms. -/
def parseCat : Nat → List Char → Option (Regex × List Char)
  | 0, _ => none
  | f + 1, cs =>
      match cs with
      | [] => some (Regex.eps, [])
      | ')' :: _ => some (Regex.eps, cs)
      | '|' :: _ => some (Regex.eps, cs)
      | _ => do
          let p ← parseAtom f cs
          let q := parseQuant p.1 p.2
          let r ← parseCat f q.2
          pure (Regex.cat q.1 r.1, r.2)

/-- Parse a single atom: group, class, escape, `.`, anchor or literal. -/
def parseAtom : Nat → List Char → Option (Regex × List Char)
  | 0, _ => none
  | f + 1, cs =>
      match cs with
      | '(' :: '?' :: ':' :: rest => do
          let p ← parseAlt f rest
          match p.2 with
          | ')' :: rest3 => pure (p.1, rest3)
          | _ => none
      | '(' :: rest => do
          let p ← parseAlt f rest
          match p.2 with
          | ')' :: rest3 => pure (p.1, rest3)
          | _ => none
      | '[' :: '^' :: rest => do
          let p ← parseClsItems rest []
          pure (Regex.cls true p.1, p.2)
      | '[' :: rest => do
          let p ← parseClsItems rest []
          pure (Regex.cls false p.1, p.2)
      | '\\' :: c :: rest => some (escapeAtom c, rest)
      | ['\\'] => none
      | '.' :: rest => some (Regex.dot, rest)
      | '^' :: rest => some (Regex.bol, rest)
      | '$' :: rest => some (Regex.eol, rest)
      | '*' :: _ => none
      | '+' :: _ => none
      | '?' :: _ => none
      | c :: rest => some (Regex.lit c, rest)
      | [] => none

end

/-- Parse a whole pattern string into a regex; `none` on a syntax error. -/
def parseRegex (s : String) : Option Regex :=
  match parseAlt (4 * s.length + 16) s.toList with
  | some (r, []) => some r
  | _ => none

/-- Structural size of a regex, used to budget matcher fuel. -/
def Regex.size : Regex → Nat
  | .cat a b => a.size + b.size + 1
  | .alt a b => a.size + b.size + 1
  | .star a => a.size + 1
  | _ => 1

/-- Is an optional character a word character. -/
def isWordOpt : Option Char → Bool
  | none => false
  | some c => wordChar c

/-- Is the first character of the remaining input a word character. -/
def headWord : List Char → Bool
  | [] => false
  | c :: _ => wordChar c

/-- Fuel-bounded backtracking matcher in continuation-passing style.  `prev`
is the character immediately before the current position (`none` at the start
of the subject), used for anchors and word boundaries.  The continuation
receives the updated previous character and the remaining input; the result
is the first success in greedy backtracking order. -/
def mfind : Nat → Regex → Option Char → List Char → (Option Char → List Char → Option Nat) →
    Option Nat
  | 0, _, _, _, _ => none
  | fuel + 1, r, prev, cs, k =>
      match r with
      | .eps => k prev cs
      | .lit c =>
          match cs with
          | c2 :: rest => if c2 = c then k (some c2) rest else none
          | [] => none
      | .dot =>
          match cs with
          | c2 :: rest => if c2 = '\n' then none else k (some c2) rest
          | [] => none
      | .cls neg items =>
          match cs with
          | c2 :: rest =>
              let hit := items.any (ClsItem.matches c2)
              if (if neg then !hit else hit) then k (some c2) rest else none
          | [] => none
      | .cat a b => mfind fuel a prev cs (fun p2 cs2 => mfind fuel b p2 cs2 k)
      | .alt a b =>
          match mfind fuel a prev cs k with
          | some n => some n
          | none => mfind fuel b prev cs k
      | .star a =>
          match mfind fuel a prev cs
              (fun p2 cs2 =>
                if cs2.length < cs.length then mfind fuel (Regex.star a) p2 cs2 k else none) with
          | some n => some n
          | none => k prev cs
      | .bol => if prev.isNone then k prev cs else none
      | .eol => if cs.isEmpty then k prev cs else none
      | .wordB => if isWordOpt prev != headWord cs then k prev cs else none
      | .nonWordB => if isWordOpt prev != headWord cs then none else k prev cs

/-- Fuel budget sufficient for the bounded subjects handled per line. -/
def matchFuel (r : Regex) (n : Nat) : Nat := (r.size + 2) * (n + 2) * 2 + 8

/-- Length of the (greedy, first-success) match of `r` at the current
position, if any. -/
def matchLenAt (r : Regex) (prev : Option Char) (cs : List Char) : Option Nat :=
  (mfind (matchFuel r cs.length) r prev cs (fun _ rest => some rest.length)).map
    (fun rem => cs.length - rem)

/-- Does `r` match somewhere at or after the current position. -/
def searchFrom (r : Regex) : Option Char → List Char → Bool
  | prev, cs =>
      (matchLenAt r prev cs).isSome ||
        match cs with
        | [] => false
        | c :: rest => searchFrom r (some c) rest

/-- Unanchored search of a compiled regex in a subject string. -/
def rmatch (r : Regex) (s : String) : Bool := searchFrom r none s.toList

/-- All non-overlapping match spans `(start, stop)` of `r`, scanning left to
right, restarting after each (non-empty) match; `i` is the absolute index of
the current position. -/
def findSpans (r : Regex) : Nat → Option Char → List Char → List (Nat × Nat)
  | _, _, [] => []
  | i, prev, c :: rest =>
      match matchLenAt r prev (c :: rest) with
      | some (len + 1) =>
          (i, i + len + 1) ::
            findSpans r (i + len + 1) ((c :: rest).get? len) ((c :: rest).drop (len + 1))
      | _ => findSpans r (i + 1) (some c) rest
termination_by _ _ cs => cs.length
decreasing_by
  · simp [List.length_drop]; omega
  · simp

/-! ## Pattern Safety Validator -/

/-- Scanner mode: ordinary pattern text, inside a character class, or inside
a counted-repetition brace. -/
inductive ScanMode where
  | normal
  | inClass
  | inBrace
  deriving Repr, DecidableEq

/-- Single pass computing the maximum quantifier-nesting depth of a pattern:
a quantifier applied to a plain atom has depth 1, a quantifier applied to a
group containing quantifiers of depth `d` has depth `d + 1`.  The stack holds
the running maximum of each enclosing group; `la` is the nesting depth of the
last completed atom. -/
def quantDepthGo : ScanMode → List Nat → Nat → Nat → List Char → Nat
  | _, _, cm, _, [] => cm
  | .inClass, st, cm, la, '\\' :: _ :: rest => quantDepthGo .inClass st cm la rest
  | .inClass, st, cm, _, ']' :: rest => quantDepthGo .normal st cm 0 rest
  | .inClass, st, cm, la, _ :: rest => quantDepthGo .inClass st cm la rest
  | .inBrace, st, cm, la, '\x7d' :: rest => quantDepthGo .normal st cm la rest
  | .inBrace, st, cm, la, _ :: rest => quantDepthGo .inBrace st cm la rest
  | .normal, st, cm, _, '\\' :: _ :: rest => quantDepthGo .normal st cm 0 rest
  | .normal, st, cm, _, '[' :: rest => quantDepthGo .inClass st cm 0 rest
  | .normal, st, cm, _, '(' :: rest => quantDepthGo .normal (cm :: st) 0 0 rest
  | .normal, o :: st, cm, _, ')' :: rest => quantDepthGo .normal st (max o cm) cm rest
  | .normal, [], cm, _, ')' :: rest => quantDepthGo .normal [] cm cm rest
  | .normal, st, cm, la, '\x7b' :: rest => quantDepthGo .inBrace st (max cm (la + 1)) (la + 1) rest
  | .normal, st, cm, la, c :: rest =>
      if c = '*' || c = '+' || c = '?' then
        quantDepthGo .normal st (max cm (la + 1)) (la + 1) rest
      else quantDepthGo .normal st cm 0 rest

/-- Maximum quantifier-nesting depth of a pattern string. -/
def quantifierDepth (s : String) : Nat := quantDepthGo .normal [] 0 0 s.toList

/-- Single pass computing the largest number of alternation separators `|`
appearing in any single group (or at top level) of a pattern. -/
def altBranchGo : ScanMode → List Nat → Nat → Nat → List Char → Nat
  | _, _, cur, best, [] => max best cur
  | .inClass, st, cur, best, '\\' :: _ :: rest => altBranchGo .inClass st cur best rest
  | .inClass, st, cur, best, ']' :: rest => altBranchGo .normal st cur best rest
  | .inClass, st, cur, best, _ :: rest => altBranchGo .inClass st cur best rest
  | .inBrace, st, cur, best, '\x7d' :: rest => altBranchGo .normal st cur best rest
  | .inBrace, st, cur, best, _ :: rest => altBranchGo .inBrace st cur best rest
  | .normal, st, cur, best, '\\' :: _ :: rest => altBranchGo .normal st cur best rest
  | .normal, st, cur, best, '[' :: rest => altBranchGo .inClass st cur best rest
  | .normal, st, cur, best, '\x7b' :: rest => altBranchGo .inBrace st cur best rest
  | .normal, st, cur, best, '(' :: rest => altBranchGo .normal (cur :: st) 0 best rest
  | .normal, o :: st, cur, best, ')' :: rest => altBranchGo .normal st o (max best cur) rest
  | .normal, [], cur, best, ')' :: rest => altBranchGo .normal [] cur best rest
  | .normal, st, cur, best, '|' :: rest => altBranchGo .normal st (cur + 1) best rest
  | .normal, st, cur, best, _ :: rest => altBranchGo .normal st cur best rest

/-- Largest number of alternation branches in any single group of a pattern. -/
def maxAlternationBranches (s : String) : Nat := altBranchGo .normal [] 0 0 s.toList + 1

mutual

/-- Collect the innermost (paren-free) groups of a pattern together with the
character immediately following their closing paren. -/
def scanGroups : List Char → List (List Char × Option Char)
  | [] => []
  | '\\' :: _ :: rest => scanGroups rest
  | '(' :: rest => grabGroup [] rest
  | _ :: rest => scanGroups rest

/-- Accumulate the body of the group currently being read; an inner opening
paren restarts the accumulation at the inner group. -/
def grabGroup : List Char → List Char → List (List Char × Option Char)
  | _, [] => []
  | acc, '\\' :: c :: rest => grabGroup (c :: '\\' :: acc) rest
  | _, '(' :: rest => grabGroup [] rest
  | acc, ')' :: rest => (acc.reverse, rest.head?) :: scanGroups rest
  | acc, c :: rest => grabGroup (c :: acc) rest

end

/-- Split a paren-free group body at its alternation separators. -/
def splitBranches : List Char → List Char → List (List Char)
  | acc, [] => [acc.reverse]
  | acc, '\\' :: c :: rest => splitBranches (c :: '\\' :: acc) rest
  | acc, '|' :: rest => acc.reverse :: splitBranches [] rest
  | acc, c :: rest => splitBranches (c :: acc) rest

/-- Does the needle occur at the head of the haystack. -/
def listLeads : List Char → List Char → Bool
  | [], _ => true
  | _ :: _, [] => false
  | a :: as, b :: bs => a = b && listLeads as bs

/-- Does the needle occur contiguously anywhere in the haystack. -/
def listOccurs : List Char → List Char → Bool
  | needle, [] => needle.isEmpty
  | needle, b :: bs => listLeads needle (b :: bs) || listOccurs needle bs

/-- Does a list of branches contain two identical branches. -/
def hasDupBranch : List (List Char) → Bool
  | [] => false
  | b :: bs => bs.contains b || hasDupBranch bs

/-- Known catastrophic-backtracking signatures: the classic quantified
wildcard groups, and any quantified group whose alternation has two identical
(self-overlapping) branches. -/
def dangerousShape (s : String) : Bool :=
  let cs := s.toList
  ["(.*)*", "(.+)+", "(.*)+", "(.+)*"].any (fun sig => listOccurs sig.toList cs) ||
    (scanGroups cs).any (fun g =>
      (g.2 = some '*' || g.2 = some '+') &&
        (let bs := splitBranches [] g.1
         decide (1 < bs.length) && hasDupBranch bs))

/-- Security policy for pattern validation.  The compile/execute timeout
fields of the source policy are real-time bounds and are not represented in
this embedding; the static-analysis limits are. -/
structure SecurityPolicy where
  max_pattern_length : Nat
  max_quantifier_nesting : Nat
  max_alternation_groups : Nat
  analysis_enabled : Bool
  deriving Repr, DecidableEq

/-- The default policy, with each limit inside the configured sane range. -/
def SecurityPolicy.default : SecurityPolicy :=
  { max_pattern_length := 1000
    max_quantifier_nesting := 1
    max_alternation_groups := 10
    analysis_enabled := true }

/-- Modelled from the spec: the pattern safety validator
(`validate_pattern_security`) is absent from the sources; reconstructed from
§4.1.  Checks run in order, first failure wins: pattern length, nested
quantifiers, alternation explosion, known-dangerous shapes; passing all
checks yields safe. -/
def validate_pattern_security (pattern : String) (policy : SecurityPolicy) :
    Bool × Option String :=
  if policy.analysis_enabled = false then (true, none)
  else if policy.max_pattern_length < pattern.length then
    (false, some "pattern length exceeds the maximum allowed length")
  else if policy.max_quantifier_nesting < quantifierDepth pattern then
    (false, some "nested quantifiers exceed the maximum allowed nesting depth")
  else if policy.max_alternation_groups < maxAlternationBranches pattern then
    (false, some "alternation branches exceed the maximum allowed groups")
  else if dangerousShape pattern then
    (false, some "known catastrophic backtracking pattern detected")
  else (true, none)

/-- Failure modes of secure compilation.  The timeout failure of the source
(`PatternTimeout`) is a real-time event and is not reachable in this
embedding. -/
inductive CompileError where
  | complexity (reason : String)
  | badSyntax (reason : String)
  deriving Repr, DecidableEq

/-- Modelled from the spec: `secure_compile` is absent from the sources;
reconstructed from §4.1.  Validation runs before any compilation attempt and
a rejected pattern fails with a complexity error; a pattern passing
validation is compiled, failing only on a syntax error. -/
def secure_compile (pattern : String) (policy : SecurityPolicy) : Except CompileError Regex :=
  match validate_pattern_security pattern policy with
  | (false, reason) => .error (.complexity (reason.getD "pattern rejected"))
  | (true, _) =>
      match parseRegex pattern with
      | some r => .ok r
      | none => .error (.badSyntax "pattern failed to compile")

/-- Is a compilation outcome a complexity (pattern-safety) failure. -/
def isComplexityError : Except CompileError Regex → Bool
  | .error (.complexity _) => true
  | _ => false

/-! ## Exclusion Engine -/

/-- Modelled from the spec: the exclusion engine (`ExclusionManager`) is
absent from the sources; reconstructed from §4.4.  It holds the ordered
pattern texts, the literal/regex mode, the security policy threaded in from
the configuration, and the running excluded-line count. -/
structure ExclusionManager where
  patterns : List String
  is_regex : Bool
  policy : SecurityPolicy
  excluded_count : Nat
  deriving Repr, DecidableEq

/-- A fresh manager over the given pattern texts. -/
def ExclusionManager.init (patterns : List String) (isRegex : Bool) : ExclusionManager :=
  { patterns := patterns, is_regex := isRegex, policy := SecurityPolicy.default,
    excluded_count := 0 }

/-- Safe regex matching of one stored pattern text: a pattern rejected by the
validator or failing to compile is inert and never matches. -/
def regexHit (policy : SecurityPolicy) (pat line : String) : Bool :=
  if (validate_pattern_security pat policy).1 then
    match parseRegex pat with
    | some r => rmatch r line
    | none => false
  else false

/-- Decide whether one line is excluded: empty or whitespace-only lines are
never excluded, regardless of patterns; otherwise a line is excluded iff any
pattern matches — literal patterns by case-sensitive substring containment,
regex patterns through their safe matcher. -/
def should_exclude (m : ExclusionManager) (line : String) : Bool :=
  if line.toList.all Char.isWhitespace then false
  else
    m.patterns.any (fun p =>
      if m.is_regex then regexHit m.policy p line
      else listOccurs p.toList line.toList)

/-- Add a pattern text; duplicates are rejected. -/
def ExclusionManager.add_pattern (m : ExclusionManager) (text : String) :
    Bool × ExclusionManager :=
  if text ∈ m.patterns then (false, m)
  else (true, { m with patterns := m.patterns ++ [text] })

/-- Remove a pattern text; removal of an absent text reports failure. -/
def ExclusionManager.remove_pattern (m : ExclusionManager) (text : String) :
    Bool × ExclusionManager :=
  if text ∈ m.patterns then
    (true, { m with patterns := m.patterns.filter (fun p => p ≠ text) })
  else (false, m)

/-- Filter a batch of lines, keeping the non-excluded ones in order and
incrementing the excluded-line count once per dropped line. -/
def filter_lines : ExclusionManager → List String → List String × ExclusionManager
  | m, [] => ([], m)
  | m, l :: ls =>
      if should_exclude m l then
        filter_lines { m with excluded_count := m.excluded_count + 1 } ls
      else
        let p := filter_lines m ls
        (l :: p.1, p.2)

/-- The running excluded-line count. -/
def get_excluded_count (m : ExclusionManager) : Nat := m.excluded_count

/-- Zero the excluded-line count. -/
def reset_excluded_count (m : ExclusionManager) : ExclusionManager :=
  { m with excluded_count := 0 }

/-! ## Remote (SSH) Line Source -/

/-- The validated components of a remote SSH source URL. -/
structure SSHParts where
  user : String
  host : String
  port : Nat
  remote_path : String
  deriving Repr, DecidableEq

/-- Shell metacharacters forbidden in a remote path: quotes, backtick,
dollar, pipe, ampersand, semicolon. -/
def shellMetaChars : List Char := ['\x27', '"', '\x60', '$', '|', '&', ';']

/-- A character a remote path must not contain: a shell metacharacter,
whitespace, or a NUL byte. -/
def pathCharBad (c : Char) : Bool :=
  c ∈ shellMetaChars || c.isWhitespace || c = '\x00'

/-- Split a character list at every occurrence of a separator. -/
def splitOnChar (sep : Char) : List Char → List (List Char)
  | [] => [[]]
  | c :: rest =>
      let r := splitOnChar sep rest
      if c = sep then [] :: r
      else
        match r with
        | [] => [[c]]
        | g :: gs => (c :: g) :: gs

/-- A valid remote path is absolute, bounded in length, free of `..`
segments, and free of NUL bytes, whitespace and shell metacharacters. -/
def pathOk (p : String) : Bool :=
  listLeads ['/'] p.toList && decide (p.length ≤ 4096) &&
    (splitOnChar '/' p.toList).all (fun seg => seg ≠ ['.', '.']) &&
    p.toList.all (fun c => !pathCharBad c)

/-- A valid host: nonempty, bounded in length, alphanumerics, dots and
hyphens only. -/
def hostOk (h : String) : Bool :=
  (!h.isEmpty) && decide (h.length ≤ 255) &&
    h.toList.all (fun c => c.isAlphanum || c = '.' || c = '-')

/-- A valid user: nonempty and bounded in length. -/
def userOk (u : String) : Bool :=
  (!u.isEmpty) && decide (u.length ≤ 64) &&
    u.toList.all (fun c => c.isAlphanum || c = '.' || c = '-' || c = '_')

/-- A valid port lies in `[1, 65535]`. -/
def portOk (p : Nat) : Bool := decide (1 ≤ p) && decide (p ≤ 65535)

/-- Accept raw parsed components only when every component validates. -/
def checkParts (x : SSHParts) : Except String SSHParts :=
  if userOk x.user && hostOk x.host && portOk x.port && pathOk x.remote_path then .ok x
  else .error "invalid SSH URL component"

/-- Drop the optional `ssh://` scheme marker. -/
def stripScheme (cs : List Char) : List Char :=
  if listLeads "ssh://".toList cs then cs.drop 6 else cs

/-- Modelled from the spec: the remote URL parser of `SSHLogReader` is absent
from the sources; reconstructed from §4.3.  Grammar
`[ssh://]user@host[:port]:/absolute/path`, port defaulting to 22; every
component is validated before any network activity, and any violation is an
error naming the offending component class. -/
def parse_ssh_url (s : String) : Except String SSHParts :=
  match splitOnChar '@' (stripScheme s.toList) with
  | [u, rest] =>
      match splitOnChar ':' rest with
      | [h, p] =>
          checkParts { user := String.mk u, host := String.mk h, port := 22,
                       remote_path := String.mk p }
      | [h, pr, p] =>
          if (!pr.isEmpty) && pr.all Char.isDigit then
            checkParts { user := String.mk u, host := String.mk h, port := digitsToNat pr,
                         remote_path := String.mk p }
          else .error "invalid port component"
      | _ => .error "malformed SSH URL"
  | _ => .error "missing user separator"

/-- The state of a constructed remote reader: the validated URL components
plus the connection timeout to be applied on open. -/
structure SSHLogReader where
  user : String
  host : String
  port : Nat
  remote_path : String
  connection_timeout : Nat
  deriving Repr, DecidableEq

/-- Modelled from the spec: `SSHLogReader` construction is absent from the
sources; reconstructed from §4.3 and §5.  The URL is parsed and validated at
construction (before any network call) and the connection timeout must be an
explicit positive bound. -/
def mkSSHLogReader (url : String) (timeout : Nat) : Except String SSHLogReader :=
  if timeout = 0 then .error "connection timeout must be positive"
  else
    match parse_ssh_url url with
    | .ok x =>
        .ok { user := x.user, host := x.host, port := x.port,
              remote_path := x.remote_path, connection_timeout := timeout }
    | .error e => .error e

/-- The arguments handed to the SSH client's connect call. -/
structure SSHConnectArgs where
  hostname : String
  port : Nat
  username : String
  timeout : Nat
  disabled_pubkeys : List String
  deriving Repr, DecidableEq

/-- Modelled from the spec: the connect call performed by `open()` is absent
from the sources; reconstructed from §4.3 — the connection applies the
reader's timeout and explicitly disables weak key algorithms (legacy DSA). -/
def SSHLogReader.connectArgs (r : SSHLogReader) : SSHConnectArgs :=
  { hostname := r.host, port := r.port, username := r.user,
    timeout := r.connection_timeout,
    disabled_pubkeys := ["ssh-dss"] }

/-! ## Styling Engine -/

/-- One configured style pattern: regex text plus display attributes. -/
structure StylePattern where
  pattern : String
  color : Option String
  background : Option String
  bold : Bool
  italic : Bool
  underline : Bool
  deriving Repr, DecidableEq

/-- The styling configuration: named patterns per category. -/
structure StylingConfig where
  patterns : List (String × StylePattern)
  timestamps : List (String × StylePattern)
  custom : List (String × StylePattern)
  deriving Repr, DecidableEq

/-- A successfully compiled style pattern with its category priority. -/
structure CompiledPattern where
  name : String
  regex : Regex
  style : StylePattern
  priority : Nat
  deriving Repr, DecidableEq

/-- Does a configured style pattern pass secure compilation. -/
def styleCompiles (policy : SecurityPolicy) (sp : StylePattern) : Bool :=
  secure_compile sp.pattern policy matches .ok _

/-- Compile one category of named style patterns at a fixed priority,
skipping (never raising on) the patterns that fail validation or
compilation. -/
def compileCategory (policy : SecurityPolicy) (prio : Nat)
    (ps : List (String × StylePattern)) : List CompiledPattern :=
  ps.filterMap (fun np =>
    match secure_compile np.2.pattern policy with
    | .ok r => some { name := np.1, regex := r, style := np.2, priority := prio }
    | .error _ => none)

/-- The styling engine: the compiled patterns in ascending priority order
(`patterns` before `timestamps` before `custom`, declaration order within a
category). -/
structure StylingEngine where
  policy : SecurityPolicy
  compiled_patterns : List CompiledPattern
  deriving Repr, DecidableEq

/-- Modelled from the spec: `StylingEngine` construction is absent from the
sources; reconstructed from §4.5.  Every configured pattern is compiled
through the validator; failures are skipped silently and excluded from the
active set, never fatal. -/
def mkStylingEngine (policy : SecurityPolicy) (cfg : StylingConfig) : StylingEngine :=
  { policy := policy
    compiled_patterns :=
      compileCategory policy 0 cfg.patterns ++ compileCategory policy 1 cfg.timestamps ++
        compileCategory policy 2 cfg.custom }

/-- A decoration span `(start, stop, style)` over a line. -/
structure StyleSpan where
  start : Nat
  stop : Nat
  style : StylePattern
  deriving Repr, DecidableEq

/-- A styled line: the untouched plain text plus its decoration spans. -/
structure StyledText where
  plain : String
  spans : List StyleSpan
  deriving Repr, DecidableEq

/-- Do two half-open index ranges overlap. -/
def spanOverlap (a b : Nat × Nat) : Bool := decide (a.1 < b.2) && decide (b.1 < a.2)

/-- Fold the compiled patterns in priority order, claiming the match spans of
each pattern on the still-uncovered portion of the line: a candidate span of
a lower-priority pattern is dropped when it overlaps an already-claimed
range. -/
def collectSpans (ps : List CompiledPattern) (cs : List Char) : List StyleSpan :=
  ps.foldl (fun acc p =>
    let ms := findSpans p.regex 0 none cs
    let free := ms.filter (fun s => acc.all (fun o => !spanOverlap s (o.start, o.stop)))
    acc ++ free.map (fun s => { start := s.1, stop := s.2, style := p.style })) []

/-- Modelled from the spec: `apply_styling` is absent from the sources;
reconstructed from §4.5.  Styling attaches decoration spans and never mutates
the content itself. -/
def apply_styling (e : StylingEngine) (line : String) : StyledText :=
  { plain := line, spans := collectSpans e.compiled_patterns line.toList }

/-- Did secure compilation of a pattern succeed. -/
def compilesOk (p : String) (policy : SecurityPolicy) : Bool :=
  secure_compile p policy matches .ok _

/-- Is a stored exclusion regex pattern valid: it both passes the safety
validator and compiles.  An invalid pattern stays in the stored list but is
inert. -/
def exclusionPatternValid (policy : SecurityPolicy) (pat : String) : Bool :=
  (validate_pattern_security pat policy).1 && (parseRegex pat).isSome

/-! ## Helper lemmas -/

/-- Dropping fewer elements than the length keeps the last element. -/
theorem getLast?_drop_of_lt {α : Type} (l : List α) (k : Nat) (h : k < l.length) :
    (l.drop k).getLast? = l.getLast? := by
  rw [List.getLast?_eq_getElem?, List.getLast?_eq_getElem?, List.getElem?_drop,
    List.length_drop]
  congr 1
  omega

/-- The exclusion decision never reads the excluded-line counter. -/
theorem should_exclude_count_irrel (m : ExclusionManager) (k : Nat) (line : String) :
    should_exclude { m with excluded_count := k } line = should_exclude m line := rfl

/-- A line the manager does not exclude survives batch filtering. -/
theorem filter_lines_keeps :
    ∀ (lines : List String) (m : ExclusionManager) (L : String),
      L ∈ lines → should_exclude m L = false → L ∈ (filter_lines m lines).1 := by
  intro lines
  induction lines with
  | nil => intro m L h _; simp at h
  | cons l ls ih =>
      intro m L hmem hkeep
      simp only [filter_lines]
      split
      · rename_i hex
        rcases List.mem_cons.mp hmem with rfl | hmem2
        · rw [hkeep] at hex; cases hex
        · exact ih _ L hmem2 (by rw [should_exclude_count_irrel]; exact hkeep)
      · rcases List.mem_cons.mp hmem with rfl | hmem2
        · exact List.mem_cons_self _ _
        · exact List.mem_cons_of_mem _ (ih m L hmem2 hkeep)

/-- Kept lines plus the counter increase account for every input line. -/
theorem filter_lines_count :
    ∀ (lines : List String) (m : ExclusionManager),
      (filter_lines m lines).1.length + (filter_lines m lines).2.excluded_count =
        lines.length + m.excluded_count := by
  intro lines
  induction lines with
  | nil => intro m; simp [filter_lines]
  | cons l ls ih =>
      intro m
      simp only [filter_lines]
      split
      · rw [ih]
        simp only [List.length_cons]
        omega
      · simp only [List.length_cons]
        rw [Nat.add_right_comm, ih]
        omega

/-- A pattern that is invalid (rejected by the validator or failing to
compile) never matches any line: it is inert. -/
theorem regexHit_inert (policy : SecurityPolicy) (pat line : String)
    (h : exclusionPatternValid policy pat = false) : regexHit policy pat line = false := by
  unfold exclusionPatternValid at h
  unfold regexHit
  cases hv : (validate_pattern_security pat policy).1 with
  | false => rw [if_neg (by simp)]
  | true =>
      rw [if_pos rfl]
      cases hp : parseRegex pat with
      | some r => rw [hv, hp] at h; simp at h
      | none => rfl

/-- Elements on which the predicate is forced false by failing the filter do
not affect an existence test. -/
theorem any_filter_of_imp {α : Type} (f g : α → Bool) :
    ∀ l : List α, (∀ x ∈ l, g x = false → f x = false) →
      l.any f = (l.filter g).any f := by
  intro l
  induction l with
  | nil => intro _; rfl
  | cons a l ih =>
      intro h
      have hrest := ih (fun x hx => h x (List.mem_cons_of_mem _ hx))
      simp only [List.any_cons, List.filter_cons]
      cases hg : g a with
      | true => simp [hrest]
      | false =>
          have hf : f a = false := h a (List.mem_cons_self _ _) hg
          simp [hf, hrest]

/-- The compiled names of one category are exactly the names of its patterns
passing secure compilation, in order. -/
theorem compileCategory_names (policy : SecurityPolicy) (prio : Nat) :
    ∀ ps : List (String × StylePattern),
      (compileCategory policy prio ps).map (fun p => p.name) =
        (ps.filter (fun np => styleCompiles policy np.2)).map (fun np => np.1) := by
  intro ps
  induction ps with
  | nil => rfl
  | cons np ps ih =>
      have ih2 := ih
      simp only [compileCategory] at ih2 ⊢
      rw [List.filterMap_cons, List.filter_cons]
      cases h : secure_compile np.2.pattern policy with
      | ok r => simp [styleCompiles, h, ih2]
      | error e => simp [styleCompiles, h, ih2]

/-- A successful URL parse passed every component check. -/
theorem parse_ssh_url_ok_valid (s : String) (x : SSHParts)
    (h : parse_ssh_url s = .ok x) :
    userOk x.user = true ∧ hostOk x.host = true ∧ portOk x.port = true ∧
      pathOk x.remote_path = true := by
  unfold parse_ssh_url at h
  split at h
  · split at h
    · unfold checkParts at h
      split at h
      · rename_i hcond
        simp only [Except.ok.injEq] at h
        subst h
        simp only [Bool.and_eq_true] at hcond
        exact ⟨hcond.1.1.1, hcond.1.1.2, hcond.1.2, hcond.2⟩
      · simp at h
    · split at h
      · unfold checkParts at h
        split at h
        · rename_i hcond
          simp only [Except.ok.injEq] at h
          subst h
          simp only [Bool.and_eq_true] at hcond
          exact ⟨hcond.1.1.1, hcond.1.1.2, hcond.1.2, hcond.2⟩
        · simp at h
      · simp at h
    · simp at h
  · simp at h

/-! ## Claim theorems -/

/-- Claim C1: pattern-security validation classifies the known ReDoS shapes
`(a+)+`, `(.*)*` and `(a|a)*` as unsafe (safe = false, reason non-null) and
`secure_compile` rejects them with a complexity error, while the common log
patterns `ERROR.*` and `\d{4}-\d{2}-\d{2}` validate as safe and compile
successfully. -/
theorem claim_C1_pattern_security :
    ((validate_pattern_security "(a+)+" SecurityPolicy.default).1 = false ∧
      (validate_pattern_security "(a+)+" SecurityPolicy.default).2.isSome = true ∧
      isComplexityError (secure_compile "(a+)+" SecurityPolicy.default) = true) ∧
    ((validate_pattern_security "(.*)*" SecurityPolicy.default).1 = false ∧
      (validate_pattern_security "(.*)*" SecurityPolicy.default).2.isSome = true ∧
      isComplexityError (secure_compile "(.*)*" SecurityPolicy.default) = true) ∧
    ((validate_pattern_security "(a|a)*" SecurityPolicy.default).1 = false ∧
      (validate_pattern_security "(a|a)*" SecurityPolicy.default).2.isSome = true ∧
      isComplexityError (secure_compile "(a|a)*" SecurityPolicy.default) = true) ∧
    ((validate_pattern_security "ERROR.*" SecurityPolicy.default).1 = true ∧
      compilesOk "ERROR.*" SecurityPolicy.default = true) ∧
    ((validate_pattern_security "\\d{4}-\\d{2}-\\d{2}" SecurityPolicy.default).1 = true ∧
      compilesOk "\\d{4}-\\d{2}-\\d{2}" SecurityPolicy.default = true) :=
  ⟨⟨rfl, rfl, rfl⟩, ⟨rfl, rfl, rfl⟩, ⟨rfl, rfl, rfl⟩, ⟨rfl, rfl⟩, ⟨rfl, rfl⟩⟩

/-- Claim C2: remote URL parsing and validation happen at construction:
`user@example.com:/var/log/app.log` parses to user `user`, host
`example.com`, default port 22 and path `/var/log/app.log`;
`admin@server.local:2222:/logs/error.log` parses with port 2222; and every
URL that parses successfully has a path free of `..` segments, shell
metacharacters, whitespace and NUL bytes, and a port in `[1, 65535]` — so
any URL violating these is rejected with an error at construction. -/
theorem claim_C2_ssh_url_validation :
    (parse_ssh_url "user@example.com:/var/log/app.log" =
      .ok { user := "user", host := "example.com", port := 22,
            remote_path := "/var/log/app.log" }) ∧
    (parse_ssh_url "admin@server.local:2222:/logs/error.log" =
      .ok { user := "admin", host := "server.local", port := 2222,
            remote_path := "/logs/error.log" }) ∧
    (∀ (s : String) (x : SSHParts), parse_ssh_url s = .ok x →
      (splitOnChar '/' x.remote_path.toList).all (fun seg => seg ≠ ['.', '.']) = true ∧
      x.remote_path.toList.all (fun c => !(c ∈ shellMetaChars : Bool)) = true ∧
      x.remote_path.toList.all (fun c => !c.isWhitespace) = true ∧
      x.remote_path.toList.all (fun c => !(c = '\x00' : Bool)) = true ∧
      1 ≤ x.port ∧ x.port ≤ 65535) := by
  refine ⟨rfl, rfl, ?_⟩
  intro s x h
  obtain ⟨_, _, hp, hpath⟩ := parse_ssh_url_ok_valid s x h
  simp only [pathOk, Bool.and_eq_true] at hpath
  obtain ⟨⟨⟨_, _⟩, hseg⟩, hchar⟩ := hpath
  rw [List.all_eq_true] at hchar
  simp only [portOk, Bool.and_eq_true, decide_eq_true_eq] at hp
  refine ⟨hseg, ?_, ?_, ?_, hp.1, hp.2⟩ <;>
    · rw [List.all_eq_true]
      intro c hc
      have hbad := hchar c hc
      simp only [pathCharBad, Bool.not_eq_eq_eq_not, Bool.not_true, Bool.or_eq_false_iff,
        decide_eq_false_iff_not] at hbad
      simp [hbad.1.1, hbad.1.2, hbad.2]

/-- Witness for C2: the universal clause applied to the second example URL. -/
theorem claim_C2_ssh_url_validation_witness :
    (splitOnChar '/'
        (SSHParts.mk "admin" "server.local" 2222 "/logs/error.log").remote_path.toList).all
        (fun seg => seg ≠ ['.', '.']) = true ∧
      (SSHParts.mk "admin" "server.local" 2222 "/logs/error.log").remote_path.toList.all
        (fun c => !(c ∈ shellMetaChars : Bool)) = true ∧
      (SSHParts.mk "admin" "server.local" 2222 "/logs/error.log").remote_path.toList.all
        (fun c => !c.isWhitespace) = true ∧
      (SSHParts.mk "admin" "server.local" 2222 "/logs/error.log").remote_path.toList.all
        (fun c => !(c = '\x00' : Bool)) = true ∧
      1 ≤ (SSHParts.mk "admin" "server.local" 2222 "/logs/error.log").port ∧
      (SSHParts.mk "admin" "server.local" 2222 "/logs/error.log").port ≤ 65535 :=
  claim_C2_ssh_url_validation.2.2 "admin@server.local:2222:/logs/error.log"
    (SSHParts.mk "admin" "server.local" 2222 "/logs/error.log") rfl

/-- Claim C3: an individual invalid exclusion/style pattern is recovered
locally and is never fatal.  Styling engine: construction is total (never
raises) and for every configuration the active compiled set consists of
exactly the configured patterns passing secure compilation, in order — a
failing pattern is skipped while every remaining pattern stays active.
Exclusion manager: a pattern failing validation or compilation is inert — it
never matches any line — and every exclusion decision equals the decision of
the manager reduced to its valid patterns, so the remaining patterns continue
operating unaffected. -/
theorem claim_C3_invalid_pattern_recovery :
    (∀ (policy : SecurityPolicy) (cfg : StylingConfig),
      (mkStylingEngine policy cfg).compiled_patterns.map (fun p => p.name) =
        ((cfg.patterns ++ cfg.timestamps ++ cfg.custom).filter
          (fun np => styleCompiles policy np.2)).map (fun np => np.1)) ∧
    (∀ (policy : SecurityPolicy) (pat line : String),
      exclusionPatternValid policy pat = false → regexHit policy pat line = false) ∧
    (∀ (policy : SecurityPolicy) (pats : List String) (k : Nat) (line : String),
      should_exclude (ExclusionManager.mk pats true policy k) line =
        should_exclude
          (ExclusionManager.mk (pats.filter (exclusionPatternValid policy)) true policy k)
          line) := by
  refine ⟨?_, ?_, ?_⟩
  · intro policy cfg
    simp only [mkStylingEngine, List.map_append, List.filter_append, compileCategory_names]
  · intro policy pat line h
    exact regexHit_inert policy pat line h
  · intro policy pats k line
    unfold should_exclude
    by_cases hb : line.toList.all Char.isWhitespace = true
    · rw [if_pos hb, if_pos hb]
    · rw [if_neg hb, if_neg hb]
      show (pats.any fun p =>
          if true = true then regexHit policy p line else listOccurs p.toList line.toList) =
        ((pats.filter (exclusionPatternValid policy)).any fun p =>
          if true = true then regexHit policy p line else listOccurs p.toList line.toList)
      have hF : ∀ p : String,
          (if true = true then regexHit policy p line else listOccurs p.toList line.toList) =
            regexHit policy p line := fun p => if_pos rfl
      simp only [hF]
      exact any_filter_of_imp _ _ pats
        (fun x _ hinv => regexHit_inert policy x line hinv)

/-- Witness for C3: the inert invalid pattern and the unchanged decision of a
concrete mixed manager. -/
theorem claim_C3_invalid_pattern_recovery_witness :
    regexHit SecurityPolicy.default "[invalid regex" "test [invalid regex content" = false ∧
      should_exclude
          (ExclusionManager.mk ["[invalid regex", "valid_pattern"] true SecurityPolicy.default 0)
          "test valid_pattern content" =
        should_exclude
          (ExclusionManager.mk
            (["[invalid regex", "valid_pattern"].filter
              (exclusionPatternValid SecurityPolicy.default)) true SecurityPolicy.default 0)
          "test valid_pattern content" :=
  ⟨claim_C3_invalid_pattern_recovery.2.1 SecurityPolicy.default "[invalid regex"
      "test [invalid regex content" rfl,
    claim_C3_invalid_pattern_recovery.2.2 SecurityPolicy.default
      ["[invalid regex", "valid_pattern"] 0 "test valid_pattern content"⟩

/-- Claim C4: every open of a remote SSH source connects with an explicit
positive connection timeout and with the weak legacy DSA key algorithm
disabled among the public-key algorithms. -/
theorem claim_C4_secure_connect (url : String) (t : Nat) (r : SSHLogReader)
    (h : mkSSHLogReader url t = .ok r) :
    0 < (SSHLogReader.connectArgs r).timeout ∧
      "ssh-dss" ∈ (SSHLogReader.connectArgs r).disabled_pubkeys := by
  unfold mkSSHLogReader at h
  split at h
  · simp at h
  · rename_i ht
    split at h
    · simp only [Except.ok.injEq] at h
      subst h
      refine ⟨?_, by simp [SSHLogReader.connectArgs]⟩
      simp only [SSHLogReader.connectArgs]
      omega
    · simp at h

/-- Witness for C4: a concrete reader constructed with timeout 30. -/
theorem claim_C4_secure_connect_witness :
    0 < (SSHLogReader.connectArgs
        { user := "user", host := "host", port := 22, remote_path := "/var/log/app.log",
          connection_timeout := 30 }).timeout ∧
      "ssh-dss" ∈ (SSHLogReader.connectArgs
        { user := "user", host := "host", port := 22, remote_path := "/var/log/app.log",
          connection_timeout := 30 }).disabled_pubkeys :=
  claim_C4_secure_connect "user@host:/var/log/app.log" 30 _ rfl

/-- Claim C5: a line that is empty or consists only of whitespace is never
excluded, regardless of the configured pattern set, and batch filtering keeps
every such line. -/
theorem claim_C5_blank_never_excluded (m : ExclusionManager) (L : String)
    (hblank : L.toList.all Char.isWhitespace = true) :
    should_exclude m L = false ∧
      ∀ lines : List String, L ∈ lines → L ∈ (filter_lines m lines).1 := by
  have hse : should_exclude m L = false := by
    unfold should_exclude
    rw [if_pos hblank]
  exact ⟨hse, fun lines hmem => filter_lines_keeps lines m L hmem hse⟩

/-- Witness for C5: the whitespace-only line under a literal pattern set. -/
theorem claim_C5_blank_never_excluded_witness :
    should_exclude (ExclusionManager.init ["DEBUG:"] false) "   " = false ∧
      "   " ∈ (filter_lines (ExclusionManager.init ["DEBUG:"] false) ["INFO: x", "   "]).1 := by
  have h := claim_C5_blank_never_excluded (ExclusionManager.init ["DEBUG:"] false) "   "
    (by decide)
  exact ⟨h.1, h.2 ["INFO: x", "   "] (by simp)⟩

/-- Claim C6: round trip between filtering and the exclusion counter: for
every pattern set and batch, kept lines plus the counter increase equal the
batch length, and resetting zeroes the counter. -/
theorem claim_C6_filter_count_round_trip (m : ExclusionManager) (lines : List String) :
    (filter_lines m lines).1.length + get_excluded_count (filter_lines m lines).2 =
      lines.length + get_excluded_count m ∧
    get_excluded_count (reset_excluded_count m) = 0 :=
  ⟨filter_lines_count lines m, rfl⟩

/-- Claim C7: tail-mode reading of a local file: on any 5-line file tail 2
yields exactly the last two lines in order, tail 0 yields nothing, tail 10
yields all five; in general tail N yields min(N, total) trailing lines whose
last element is the file's last line. -/
theorem claim_C7_tail_mode :
    (∀ a b c d e : String,
      read_lines [a, b, c, d, e] (some 2) = [LogLine.plain 4 d, LogLine.plain 5 e] ∧
      read_lines [a, b, c, d, e] (some 0) = [] ∧
      read_lines [a, b, c, d, e] (some 10) = read_lines [a, b, c, d, e] none) ∧
    (∀ (ls : List String) (n : Nat),
      (read_lines ls (some n)).length = min n ls.length ∧
      (0 < n → ls ≠ [] →
        (read_lines ls (some n)).getLast? = (read_lines ls none).getLast?)) := by
  constructor
  · intro a b c d e
    exact ⟨rfl, rfl, rfl⟩
  · intro ls n
    constructor
    · simp only [read_lines, List.length_drop, List.length_map, List.enum_length]
      omega
    · intro hn hne
      have hlen : 0 < ls.length := List.length_pos.mpr hne
      simp only [read_lines]
      apply getLast?_drop_of_lt
      simp only [List.length_map, List.enum_length]
      omega

/-- Witness for C7: the general tail clause on a concrete 3-line file. -/
theorem claim_C7_tail_mode_witness :
    (read_lines ["x", "y", "z"] (some 2)).length = min 2 ["x", "y", "z"].length ∧
      (read_lines ["x", "y", "z"] (some 2)).getLast? =
        (read_lines ["x", "y", "z"] none).getLast? :=
  ⟨(claim_C7_tail_mode.2 ["x", "y", "z"] 2).1,
    (claim_C7_tail_mode.2 ["x", "y", "z"] 2).2 (by decide) (by decide)⟩

/-- Claim C8: the change watcher reports no change on the first observation
(recording the baseline), reports a change exactly when a later observation
differs from the baseline (updating it), and reports no change again on an
identical follow-up observation. -/
theorem claim_C8_change_detection (s1 s2 : WatchSnapshot) (hne : s2 ≠ s1) :
    check_for_changes none s1 = (false, some s1) ∧
      check_for_changes (some s1) s2 = (true, some s2) ∧
      check_for_changes (some s2) s2 = (false, some s2) := by
  refine ⟨rfl, ?_, ?_⟩
  · simp [check_for_changes, hne]
  · simp [check_for_changes]

/-- Witness for C8: a grown and touched file after the baseline snapshot. -/
theorem claim_C8_change_detection_witness :
    check_for_changes none (WatchSnapshot.mk 1000 100) =
        (false, some (WatchSnapshot.mk 1000 100)) ∧
      check_for_changes (some (WatchSnapshot.mk 1000 100)) (WatchSnapshot.mk 1100 200) =
        (true, some (WatchSnapshot.mk 1100 200)) ∧
      check_for_changes (some (WatchSnapshot.mk 1100 200)) (WatchSnapshot.mk 1100 200) =
        (false, some (WatchSnapshot.mk 1100 200)) :=
  claim_C8_change_detection (WatchSnapshot.mk 1000 100) (WatchSnapshot.mk 1100 200) (by decide)

/-- Claim C9: styling never mutates line content: for every engine (any
pattern configuration, including empty and overlapping ones) and every input
line, the plain text of the styling result equals the input line exactly;
styling only attaches decoration spans. -/
theorem claim_C9_styling_preserves_content (e : StylingEngine) (line : String) :
    (apply_styling e line).plain = line := rfl

/-- Claim C10: the async watcher's watched-file set is total under removal: a
fresh watcher has an empty watched set, no observer and no callback; removing
an unwatched path is a no-op that leaves the set unchanged (and never an
error); and after adding then removing a path, the path is not watched. -/
theorem claim_C10_watcher_removal_total :
    (AsyncFileWatcher.init.watched_files = [] ∧ AsyncFileWatcher.init.observer = none ∧
      AsyncFileWatcher.init.callback = none) ∧
    (∀ (w : AsyncFileWatcher) (p : String), p ∉ w.watched_files →
      (w.remove_file p).watched_files = w.watched_files) ∧
    (∀ (w : AsyncFileWatcher) (p : String),
      p ∉ ((w.add_file p).remove_file p).watched_files) := by
  refine ⟨⟨rfl, rfl, rfl⟩, ?_, ?_⟩
  · intro w p hp
    simp only [AsyncFileWatcher.remove_file]
    apply List.filter_eq_self.mpr
    intro a ha
    simp only [ne_eq, decide_eq_true_eq]
    exact fun h => hp (h ▸ ha)
  · intro w p
    simp [AsyncFileWatcher.remove_file, List.mem_filter]

/-- Witness for C10: removal of an unwatched path and of an added path. -/
theorem claim_C10_watcher_removal_total_witness :
    ((AsyncFileWatcher.mk ["a.log"] none none).remove_file "b.log").watched_files =
        (AsyncFileWatcher.mk ["a.log"] none none).watched_files ∧
      "c.log" ∉ (((AsyncFileWatcher.mk ["a.log"] none none).add_file "c.log").remove_file
        "c.log").watched_files :=
  ⟨claim_C10_watcher_removal_total.2.1 (AsyncFileWatcher.mk ["a.log"] none none) "b.log"
      (by decide),
    claim_C10_watcher_removal_total.2.2 (AsyncFileWatcher.mk ["a.log"] none none) "c.log"⟩

end Dalog
